import Mathlib

/-!
Verification of the extraction-and-normalization pipeline of the
`certificates` repository (course_scraper.py, track_scraper.py) against its
natural-language specification.  The Python source is shallowly embedded:
HTML documents become an inductive tree, JSON-LD payloads an inductive
`Json` value, and each Python function is translated line by line into an
executable Lean definition.
-/

/-! ## Generic string helpers mirroring Python primitives -/

/-- Python `str.replace(old, new)` on character lists, for a non-empty
pattern: scan left to right, replacing non-overlapping occurrences. -/
def pyReplaceGo (pat new : List Char) : List Char → List Char
  | [] => []
  | c :: rest =>
    if pat ≠ [] ∧ pat.isPrefixOf (c :: rest) then
      new ++ pyReplaceGo pat new (List.drop (pat.length - 1) rest)
    else
      c :: pyReplaceGo pat new rest
termination_by l => l.length
decreasing_by
  all_goals simp [List.length_drop]
  all_goals omega

/-- Python `str.replace(old, new)`: with an empty pattern Python inserts
`new` at every position (`"ab".replace("", "X") == "XaXbX"`). -/
def pyReplaceL (s pat new : List Char) : List Char :=
  if pat = [] then new ++ s.flatMap (fun c => c :: new)
  else pyReplaceGo pat new s

/-- Python `str.replace` on strings. -/
def pyReplaceS (s pat new : String) : String :=
  ⟨pyReplaceL s.data pat.data new.data⟩

/-- Python substring containment `pat in s` on character lists. -/
def listContainsSub (s pat : List Char) : Bool :=
  s.tails.any (fun t => pat.isPrefixOf t)

/-- Python substring containment `pat in s` on strings. -/
def strContains (s pat : String) : Bool :=
  listContainsSub s.data pat.data

/-- Python `int()` applied to a non-empty string of decimal digits. -/
def digitsToNat (ds : List Char) : Nat :=
  ds.foldl (fun n c => 10 * n + (c.toNat - 48)) 0

/-- ASCII whitespace, the characters Python `str.strip()` removes in the
documents at hand. -/
def isSpaceChar (c : Char) : Bool :=
  c == ' ' || c == '\t' || c == '\n' || c == '\r' ||
    c == '\x0b' || c == '\x0c'

/-- Python `str.strip()` on a character list. -/
def pyStripL (l : List Char) : List Char :=
  ((l.dropWhile isSpaceChar).reverse.dropWhile isSpaceChar).reverse

/-- Python `str.strip()`. -/
def pyStrip (s : String) : String :=
  ⟨pyStripL s.data⟩

/-- Python `str.lower()` on one character (ASCII). -/
def pyLowerChar (c : Char) : Char :=
  if 'A' ≤ c ∧ c ≤ 'Z' then Char.ofNat (c.toNat + 32) else c

/-- Python `str.lower()` (ASCII). -/
def pyLower (s : String) : String :=
  ⟨s.data.map pyLowerChar⟩

/-! ## DurationParser (course_scraper.py lines 44–48)

The source runs `re.search(r'PT(\d+)H', workload)` and, on a match, takes
`int(match.group(1))`.  `re.search` scans start positions left to right;
at a given position the pattern matches when the text reads `P`, `T`, a
non-empty digit run, then `H` (the greedy `\d+` cannot backtrack into a
successful parse when the following character is not `H`, because every
shorter digit run is followed by a digit). -/

/-- Maximal leading run of decimal digits, with the remainder
(the behaviour of the greedy `\d+`). -/
def digitSpan : List Char → List Char × List Char
  | [] => ([], [])
  | c :: rest =>
    if c.isDigit then
      let (ds, r) := digitSpan rest
      (c :: ds, r)
    else
      ([], c :: rest)

/-- Attempt to match `PT(\d+)H` anchored at the start of `l`,
returning the captured digit group. -/
def matchPTH (l : List Char) : Option (List Char) :=
  match l with
  | c1 :: c2 :: rest =>
    if c1 = 'P' ∧ c2 = 'T' then
      let (ds, r) := digitSpan rest
      if ds ≠ [] ∧ r.head? = some 'H' then some ds else none
    else none
  | _ => none

/-- `re.search(r'PT(\d+)H', ·)` followed by `int(group(1))`: try every
start position left to right, return the first capture as a number. -/
def searchPTH : List Char → Option Nat
  | [] => none
  | c :: rest =>
    match matchPTH (c :: rest) with
    | some ds => some (digitsToNat ds)
    | none => searchPTH rest

/-- course_scraper.py lines 37–48: `workload` may be absent or empty
(`if workload:` guards falsy values), else the regex search runs. -/
def durationParser : Option String → Option Nat
  | none => none
  | some s => if s = "" then none else searchPTH s.data

/-! Claim-side definitions for C1, written from the spec's words: the spec
says the parser recognizes exactly the whole-string pattern `PT<digits>H`
and yields null for any other pattern, with no partial parse. -/

/-- Whole-string match of `PT<digits>H` (the spec's stated domain). -/
def fullMatchPTH (s : String) : Bool :=
  match s.data with
  | c1 :: c2 :: rest =>
    (c1 = 'P' ∧ c2 = 'T' : Bool) &&
      (let (ds, r) := digitSpan rest
       (!ds.isEmpty) && (r == ['H']))
  | _ => false

/-- The parser the spec describes: hour count exactly on a whole-string
match, null otherwise. -/
def specDurationParser : Option String → Option Nat
  | none => none
  | some s =>
    if fullMatchPTH s then
      match s.data with
      | _ :: _ :: rest => some (digitsToNat (digitSpan rest).1)
      | _ => none
    else none

/-- The string `s` contains a (substring) occurrence of `PT<digits>H`. -/
def HasPTHSub (s : String) : Prop :=
  ∃ pre ds suf, s.data = pre ++ ('P' :: 'T' :: ds) ++ ('H' :: suf) ∧
    ds ≠ [] ∧ ∀ c ∈ ds, c.isDigit

/-! ## HTML document model

The renderers dispatch on element tag names only (`h2`, `h3`, `p`, `ul`,
`ol`, `li`, `img`, `picture`, `b`, `strong`), so a node is a named tag
with children, or a text node. -/

inductive Html where
  | tag (name : String) (children : List Html)
  | text (s : String)
deriving Repr

mutual

/-- All text-node contents of a subtree, in document order
(BeautifulSoup's `_all_strings`). -/
def Html.strings : Html → List String
  | .text s => [s]
  | .tag _ cs => stringsL cs

/-- Text-node contents of a forest, in document order. -/
def stringsL : List Html → List String
  | [] => []
  | c :: t => Html.strings c ++ stringsL t

end

/-- BeautifulSoup `get_text(strip=True)`: each text fragment is stripped,
empty fragments are dropped, and the rest are concatenated (default
separator is the empty string). -/
def getTextStrip (e : Html) : String :=
  String.join (((Html.strings e).map pyStrip).filter (fun s => s ≠ ""))

/-- Direct children of an element (`element.children`). -/
def Html.childrenOf : Html → List Html
  | .text _ => []
  | .tag _ cs => cs

mutual

/-- A tag node followed by its descendant tags (pre-order); nothing for a
text node. -/
def selfAndDescTags : Html → List Html
  | .text _ => []
  | .tag n cs => Html.tag n cs :: descTagsL cs

/-- All tag elements of a forest with their descendants, pre-order =
document order. -/
def descTagsL : List Html → List Html
  | [] => []
  | c :: t => selfAndDescTags c ++ descTagsL t

end

/-- All proper descendant tag elements of one element, in document order
(`find_all(recursive=True)`). -/
def Html.descTags : Html → List Html
  | .text _ => []
  | .tag _ cs => descTagsL cs

/-- `element.find_all(names)`: descendant tags whose name is in `names`,
in document order. -/
def Html.findAllNamed (names : List String) (e : Html) : List Html :=
  e.descTags.filter (fun d =>
    match d with
    | .tag n _ => names.contains n
    | .text _ => false)

/-- `element.find(name) is not None`: some descendant tag has this name. -/
def Html.hasDescTag (name : String) (e : Html) : Bool :=
  !(e.findAllNamed [name]).isEmpty

/-- `element.find_all(name, recursive=False)`: direct children with the
given tag name. -/
def Html.childTagsNamed (name : String) (e : Html) : List Html :=
  e.childrenOf.filter (fun d =>
    match d with
    | .tag n _ => n == name
    | .text _ => false)

mutual

/-- A tag node (paired with whether it has an `li` ancestor, the result
of `find_parent('li')`) followed by its descendants; `pLi` says whether
the node itself already has an `li` ancestor. -/
def selfAndDescLi (pLi : Bool) : Html → List (Html × Bool)
  | .text _ => []
  | .tag n cs => (Html.tag n cs, pLi) :: descTagsLiL (pLi || n == "li") cs

/-- Tag elements of a forest with their `li`-ancestor flags, in document
order. -/
def descTagsLiL (pLi : Bool) : List Html → List (Html × Bool)
  | [] => []
  | c :: t => selfAndDescLi pLi c ++ descTagsLiL pLi t

end

/-- Descendants of the region root with their `li`-ancestor flag; the
region root itself is taken to have no `li` ancestor (`find_parent`
cannot see above the region in this model). -/
def Html.descTagsLi : Html → List (Html × Bool)
  | .text _ => []
  | .tag n cs => descTagsLiL (n == "li") cs

/-! ## MarkdownRenderer, track variant
(track_scraper.py `convert_html_to_markdown`, lines 75–140) -/

/-- track_scraper.py lines 99–107 / 117–125: a list item's text with each
bold/strong descendant's text wrapped as `**text**`
(Python `str.replace` replaces every occurrence). -/
def liItemTextTrack (li : Html) : String :=
  (li.findAllNamed ["b", "strong"]).foldl
    (fun t b =>
      let bt := getTextStrip b
      pyReplaceS t bt ("**" ++ bt ++ "**"))
    (getTextStrip li)

/-- The candidate markdown lines one descendant contributes in
track_scraper.py's renderer loop (lines 80–130), before the
`not in markdown_lines` membership guards. -/
def candTrack : Html × Bool → List String
  | (e, liAnc) =>
    match e with
    | .text _ => []
    | .tag n _ =>
      if n == "h2" then
        (let t := getTextStrip e; if t ≠ "" then ["## " ++ t] else [])
      else if n == "h3" then
        (let t := getTextStrip e; if t ≠ "" then ["### " ++ t] else [])
      else if n == "p" then
        (let t := getTextStrip e
         if t ≠ "" ∧ !e.hasDescTag "picture" ∧ !e.hasDescTag "img" then [t]
         else [])
      else if n == "ul" && !liAnc then
        (e.childTagsNamed "li").filterMap (fun li =>
          if getTextStrip li ≠ "" then some ("- " ++ liItemTextTrack li)
          else none)
      else if n == "ol" && !liAnc then
        ((e.childTagsNamed "li").enumFrom 1).filterMap (fun p =>
          if getTextStrip p.2 ≠ "" then
            some (toString p.1 ++ ". " ++ liItemTextTrack p.2)
          else none)
      else []

/-- `markdown_lines.append(x)` guarded by `x not in markdown_lines`. -/
def appendUnique (acc : List String) (x : String) : List String :=
  if x ∈ acc then acc else acc ++ [x]

/-- The `markdown_lines` accumulator after the full descendant loop of
track_scraper.py lines 77–130: every candidate line is appended subject
to a membership guard. -/
def trackLinesAcc (e : Html) : List String :=
  e.descTagsLi.foldl (fun acc d => (candTrack d).foldl appendUnique acc) []

/-- track_scraper.py lines 132–138: the final `seen`-set pass that keeps
only the first occurrence of each line. -/
def dedupPass (ls : List String) : List String :=
  ls.foldl appendUnique []

/-- track_scraper.py `convert_html_to_markdown` (lines 75–140). -/
def convert_html_to_markdown_track (e : Html) : String :=
  String.intercalate "\n\n" (dedupPass (trackLinesAcc e))

/-! ## MarkdownRenderer, course variant
(course_scraper.py `convert_html_to_markdown`, lines 139–169) -/

/-- The markdown lines one direct child contributes in course_scraper.py's
renderer (lines 143–167); appends are unconditional, so the child's
contribution is simply concatenated.  A text child models bs4's
`NavigableString`, which exposes `get_text` (the `hasattr` branch). -/
def candCourse (child : Html) : List String :=
  match child with
  | .text s => if pyStrip s ≠ "" then [pyStrip s] else []
  | .tag n _ =>
    if n == "h2" then ["## " ++ getTextStrip child]
    else if n == "h3" then ["### " ++ getTextStrip child]
    else if n == "p" then
      -- line 151: `if text and not (len(child.find_all('img')) > 0 and not text)`
      (let t := getTextStrip child
       let hasImg := !(child.findAllNamed ["img"]).isEmpty
       if (t != "") && !(hasImg && (t == "")) then [t] else [])
    else if n == "ul" then
      (child.findAllNamed ["li"]).filterMap (fun li =>
        let t := getTextStrip li
        if t ≠ "" then some ("- " ++ t) else none)
    else if n == "ol" then
      ((child.findAllNamed ["li"]).enumFrom 1).filterMap (fun p =>
        let t := getTextStrip p.2
        if t ≠ "" then some (toString p.1 ++ ". " ++ t) else none)
    else
      (let t := getTextStrip child; if t ≠ "" then [t] else [])

/-- course_scraper.py `convert_html_to_markdown` (lines 139–169):
no deduplication of any kind. -/
def convert_html_to_markdown_course (e : Html) : String :=
  String.intercalate "\n\n" (e.childrenOf.flatMap candCourse)

/-! ## JSON-LD payloads -/

inductive Json where
  | null
  | bool (b : Bool)
  | num (n : Int)
  | str (s : String)
  | arr (items : List Json)
  | obj (fields : List (String × Json))
deriving Repr

/-- Field lookup in a parsed JSON object. -/
def Json.lookupField (k : String) : List (String × Json) → Option Json
  | [] => none
  | (k', v) :: rest => if k' == k then some v else Json.lookupField k rest

/-- Python `d.get(k)`: `None` when the key is absent; an `AttributeError`
(modeled as `Except.error`) when the receiver is not a dict. -/
def pyGet (j : Json) (k : String) : Except Unit (Option Json) :=
  match j with
  | .obj fs => .ok (Json.lookupField k fs)
  | _ => .error ()

/-- Python `d.get(k, default)`. -/
def pyGetD (j : Json) (k : String) (d : Json) : Except Unit Json :=
  match j with
  | .obj fs => .ok ((Json.lookupField k fs).getD d)
  | _ => .error ()

/-- Python truthiness of a JSON value. -/
def Json.truthy : Json → Bool
  | .null => false
  | .bool b => b
  | .num n => n != 0
  | .str s => s != ""
  | .arr l => !l.isEmpty
  | .obj fs => !fs.isEmpty

/-- Python truthiness of a `.get` result (`None` is falsy). -/
def optTruthy : Option Json → Bool
  | none => false
  | some j => j.truthy

/-- Python `json_data.get('@type') == 'Course'`: true only for the exact
string `"Course"` (comparison with `None` or non-strings is `False`). -/
def isCourseTyped : Option Json → Bool
  | some (.str s) => s == "Course"
  | _ => false

/-! ## MetadataExtractor, course variant
(course_scraper.py `extract_course_data` lines 15–50 and
`find_course_json_ld` lines 172–196) -/

structure CourseInfo where
  type : Option Json
  title : Option Json
  description : Option Json
  price : Option Json
  currency : Option Json
  courseWorkload_hours : Option Nat
  educationalLevel : Option Json
  skills : List String := []
  detailed_description : String := ""
  exercises_count : Option Nat := none
  source_url : String := ""
deriving Repr

/-- course_scraper.py `extract_course_data` (lines 15–50).  `Except.error`
stands for a Python exception escaping the function (it is caught in
`find_course_json_ld`'s `try`).  One corner is modeled as an error even
though Python would crash: a truthy non-string `workload` makes
`re.search` raise an uncaught `TypeError`; no claim exercises it. -/
def extract_course_data (j : Json) : Except Unit CourseInfo := do
  let ty ← pyGet j "@type"
  let name ← pyGet j "name"
  let desc ← pyGet j "description"
  let lvl ← pyGet j "educationalLevel"
  -- lines 30–34: price/currency from a truthy `offers`
  let offers ← pyGet j "offers"
  let pc ← match offers with
    | some o =>
      if o.truthy then do
        let p ← pyGet o "price"
        let c ← pyGet o "priceCurrency"
        pure (p, c)
      else pure ((none : Option Json), (none : Option Json))
    | none => pure ((none : Option Json), (none : Option Json))
  -- lines 36–42: workload fallback chain
  let workload0 ← pyGet j "timeRequired"
  let workload ←
    if !(optTruthy workload0) then do
      let cis ← pyGet j "hasCourseInstance"
      match cis with
      | some (.arr (c0 :: _)) => pyGet c0 "courseWorkload"
      | _ => pure workload0
    else pure workload0
  -- lines 44–48: the `PT<digits>H` regex on a truthy workload
  let hours : Option Nat ←
    match workload with
    | some w =>
      if w.truthy then
        match w with
        | .str s => pure (searchPTH s.data)
        | _ => Except.error ()
      else pure none
    | none => pure none
  pure { type := ty, title := name, description := desc, price := pc.1,
         currency := pc.2, courseWorkload_hours := hours,
         educationalLevel := lvl }

/-- course_scraper.py lines 185–188: the loop over the items of an
array-shaped JSON-LD payload.  A non-dict item raises `AttributeError`
at `item.get('@type')`, which the enclosing `try` catches: already
extracted items are kept and the rest of this script is abandoned. -/
def courseItemsLoop : List Json → List CourseInfo → List CourseInfo
  | [], acc => acc
  | item :: rest, acc =>
    match pyGet item "@type" with
    | .error _ => acc
    | .ok t =>
      if isCourseTyped t then
        match extract_course_data item with
        | .ok c => courseItemsLoop rest (acc ++ [c])
        | .error _ => acc
      else courseItemsLoop rest acc

/-- The contribution of one `<script type="application/ld+json">` tag to
`find_course_json_ld`.  `none` models a `json.JSONDecodeError` from
`json.loads` (logged, block skipped). -/
def processScript : Option Json → List CourseInfo
  | none => []
  | some j =>
    match j with
    | .arr items => courseItemsLoop items []
    | _ =>
      match pyGet j "@type" with
      | .error _ => []
      | .ok t =>
        if isCourseTyped t then
          match extract_course_data j with
          | .ok c => [c]
          | .error _ => []
        else []

/-- course_scraper.py `find_course_json_ld` (lines 172–196): the
`courses` list accumulates across scripts and an exception only abandons
the current script, so the result is the concatenation of the per-script
contributions. -/
def find_course_json_ld (scripts : List (Option Json)) : List CourseInfo :=
  scripts.flatMap processScript

/-- course_scraper.py lines 219–224: after `find_course_json_ld`, the
document-level skills / detailed description / exercises count (each
computed once per document, lines 215–217) and the source URL are written
into every extracted course. -/
def attachDocumentData (url : String) (skills : List String)
    (detailed_desc : String) (exercises_count : Option Nat)
    (courses : List CourseInfo) : List CourseInfo :=
  courses.map fun c =>
    { c with source_url := url, skills := skills,
             detailed_description := detailed_desc,
             exercises_count := exercises_count }

/-- course_scraper.py lines 211–224: one document's processing, with the
document-level extraction results passed in as values. -/
def process_url (url : String) (scripts : List (Option Json))
    (skills : List String) (detailed_desc : String)
    (exercises_count : Option Nat) : List CourseInfo :=
  attachDocumentData url skills detailed_desc exercises_count
    (find_course_json_ld scripts)

/-! ## RecordBuilder heuristics and MetadataExtractor, track variant
(track_scraper.py `extract_track_info`, lines 142–202) -/

/-- track_scraper.py lines 167–174: dialect from fixed substrings of the
title, first match wins, `"Standard SQL"` by default. -/
def dialectOf (track_name : String) : String :=
  if strContains track_name "MySQL" then "MySQL"
  else if strContains track_name "PostgreSQL" then "PostgreSQL"
  else if strContains track_name "SQL Server" then "SQL Server"
  else "Standard SQL"

/-- track_scraper.py line 177: purpose from the title. -/
def purposeOf (track_name : String) : String :=
  if strContains track_name "Practice" then "practice" else "learn"

structure TrackInfo where
  name : String
  description : Json
  detailed_description : String
  price : Json
  hours : String
  level : Json
  dialect : String
  purpose : String
  skills : List String
  course_urls : List Json
  url : String := ""
deriving Repr

/-- track_scraper.py lines 164–198: building the track record from the
parsed JSON of the selected script tag.  `Except.error` models an
exception reaching the handler of lines 200–202 (`AttributeError` /
`KeyError`), which makes `extract_track_info` return `None`.  Two corners
where Python would instead crash with an uncaught `TypeError` — a
non-string `name` reaching `"MySQL" in track_name`, and a non-list
`hasPart` being iterated — are also modeled as errors; no claim
exercises them. -/
def buildTrackInfo (j : Json) (skills : List String)
    (detailed_description : String) : Except Unit TrackInfo := do
  let nameJ ← pyGetD j "name" (.str "")
  let name ← match nameJ with
    | .str s => Except.ok s
    | _ => Except.error ()
  let descJ ← pyGetD j "description" (.str "")
  -- line 183: `json_data.get('offers', {}).get('price', '')`
  let offersJ ← pyGetD j "offers" (.obj [])
  let priceJ ← pyGetD offersJ "price" (.str "")
  -- line 184: `.get('timeRequired','').replace('PT','').replace('H','')`
  -- (a non-string raises AttributeError at `.replace`, caught below)
  let timeJ ← pyGetD j "timeRequired" (.str "")
  let hours ← match timeJ with
    | .str s => Except.ok (pyReplaceS (pyReplaceS s "PT" "") "H" "")
    | _ => Except.error ()
  let levelJ ← pyGetD j "educationalLevel" (.str "")
  -- lines 193–196: course URLs from `hasPart`
  let course_urls ← match j with
    | .obj fs =>
      match Json.lookupField "hasPart" fs with
      | none => Except.ok ([] : List Json)
      | some (.arr items) =>
        Except.ok (items.filterMap (fun it =>
          match it with
          | .obj ifs => Json.lookupField "url" ifs
          | _ => none))
      | some _ => Except.error ()
    | _ => Except.error ()
  pure { name := name, description := descJ,
         detailed_description := detailed_description,
         price := priceJ, hours := hours, level := levelJ,
         dialect := dialectOf name, purpose := purposeOf name,
         skills := skills, course_urls := course_urls }

/-- track_scraper.py `extract_track_info` (lines 142–202).  Its input is
the list of `application/ld+json` script tags in document order, each
given as the result of `json.loads` on its text (`none` = parse failure,
caught at lines 200–202).  The document-level skills and detailed
description (extracted at lines 161–162, once per document) are passed
as values.  Lines 149–152: fewer than two script tags → `None`, else the
second tag (`script_tags[1]`) is used — with no inspection of its
declared `@type`. -/
def extract_track_info (scripts : List (Option Json))
    (skills : List String) (detailed_description : String) :
    Option TrackInfo :=
  if scripts.length < 2 then none
  else
    match scripts[1]? with
    | some (some j) =>
      match buildTrackInfo j skills detailed_description with
      | .ok t => some t
      | .error _ => none
    | _ => none

/-! ## ExercisesCountExtractor
(course_scraper.py `extract_exercises_count`, lines 112–136)

The summary region is modeled as the document-order list of label spans
(`productSummarySection__itemLabel`), each with the text of its next
value-span sibling (`productSummarySection__itemValue`) when one
exists. -/

structure SummaryItem where
  label : String
  value : Option String
deriving Repr, DecidableEq

/-- Line 123: a label is a candidate when its lower-cased stripped text
contains `"coding challenges"` or `"exercises"`. -/
def isExercisesLabel (label_text : String) : Bool :=
  strContains label_text "coding challenges" ||
    strContains label_text "exercises"

/-- course_scraper.py `extract_exercises_count` (lines 112–136): for each
candidate label, strip all non-digits from the value text and parse as an
integer; `int('')` raises `ValueError`, caught by `continue`; a candidate
without a value span simply falls through to the next iteration. -/
def extract_exercises_count : List SummaryItem → Option Nat
  | [] => none
  | item :: rest =>
    let label_text := pyLower (pyStrip item.label)
    if isExercisesLabel label_text then
      match item.value with
      | some v =>
        let ds := (pyStrip v).data.filter Char.isDigit
        if ds.isEmpty then extract_exercises_count rest
        else some (digitsToNat ds)
      | none => extract_exercises_count rest
    else extract_exercises_count rest

/-! ## Exporter (course_scraper.py lines 266–312,
track_scraper.py `save_tracks_to_csv` lines 204–230) -/

/-- The fixed CSV schema, identical in both files. -/
def fieldnames : List String :=
  ["title", "url", "exercises", "dialect", "hours", "kind", "description",
   "detailed_description", "skills", "purpose", "level", "price"]

/-- How `csv` renders a cell value: strings verbatim, `None` as an empty
field, numbers via `str()`.  (Composite values would render via Python
`str()`; no claim depends on their text, so a placeholder is used.) -/
def jsonCell : Json → String
  | .null => ""
  | .str s => s
  | .num n => toString n
  | .bool b => if b then "True" else "False"
  | .arr _ => "<list>"
  | .obj _ => "<dict>"

/-- A possibly-`None` cell. -/
def optCell : Option Json → String
  | none => ""
  | some j => jsonCell j

/-- An optional integer cell. -/
def natCell : Option Nat → String
  | none => ""
  | some n => toString n

/-- course_scraper.py lines 281–282: newline-joined skills, or empty. -/
def courseSkillsCell (skills : List String) : String :=
  if !skills.isEmpty then String.intercalate "\n" skills else ""

/-- track_scraper.py lines 213–214: comma-joined skills, or empty. -/
def trackSkillsCell (skills : List String) : String :=
  if !skills.isEmpty then String.intercalate ", " skills else ""

/-- course_scraper.py lines 284–289: `"<price> <currency>"` when both are
truthy, else the bare price, else empty. -/
def price_text (c : CourseInfo) : String :=
  if optTruthy c.price ∧ optTruthy c.currency then
    optCell c.price ++ " " ++ optCell c.currency
  else if optTruthy c.price then optCell c.price
  else ""

/-- course_scraper.py lines 291–305, one data row.  `csv.DictWriter`
emits the dict's values in `fieldnames` order regardless of the dict's
insertion order, which this list encodes positionally. -/
def courseRow (c : CourseInfo) : List String :=
  [optCell c.title, c.source_url, natCell c.exercises_count, "",
   natCell c.courseWorkload_hours, "Course", optCell c.description,
   c.detailed_description, courseSkillsCell c.skills, "",
   optCell c.educationalLevel, price_text c]

/-- course_scraper.py lines 266–312: the whole export block.  It is
guarded by `if all_courses:`, so an empty collection writes no file at
all (`none`); otherwise the table is the header row followed by one data
row per course. -/
def course_csv_export (all_courses : List CourseInfo) :
    Option (List (List String)) :=
  if all_courses.isEmpty then none
  else some (fieldnames :: all_courses.map courseRow)

/-- track_scraper.py lines 216–229, one data row, in `fieldnames`
order. -/
def trackRow (t : TrackInfo) : List String :=
  [t.name, t.url, "", t.dialect, t.hours, "Track", jsonCell t.description,
   t.detailed_description, trackSkillsCell t.skills, t.purpose,
   jsonCell t.level, jsonCell t.price]

/-- track_scraper.py `save_tracks_to_csv` (lines 204–230): header row
then one row per track, for a collection of any size. -/
def save_tracks_to_csv (tracks_data : List TrackInfo) :
    List (List String) :=
  fieldnames :: tracks_data.map trackRow

/-! ## Claim-side definitions (formalizing the spec's wording) -/

/-- Deduplication by exact text match keeping the first occurrence, given
the set of lines already seen (the spec's description in §4.4). -/
def keepFirsts (seen : List String) : List String → List String
  | [] => []
  | x :: xs =>
    if x ∈ seen then keepFirsts seen xs
    else x :: keepFirsts (x :: seen) xs

/-- The raw emission sequence of the track renderer: candidate lines in
document order, before any deduplication. -/
def rawTrackLines (e : Html) : List String :=
  e.descTagsLi.flatMap candTrack

/-- The selection rule the spec describes for Track metadata (§4.1 and
C3): among the parsed blocks whose declared `@type` equals the target
entity type, take the second; `none` when no second matching block
exists. -/
def secondMatchingBlock (target : String) (scripts : List (Option Json)) :
    Option Json :=
  ((scripts.filterMap id).filter (fun j =>
    match j with
    | .obj fs =>
      match Json.lookupField "@type" fs with
      | some (.str s) => s == target
      | _ => false
    | _ => false))[1]?

/-- The per-candidate outcome the spec describes for the exercises-count
extractor (§4.5): a candidate label's value parses to the integer left
after stripping non-digits, failing when no digits remain or no adjacent
value exists. -/
def candidateValue (it : SummaryItem) : Option Nat :=
  if isExercisesLabel (pyLower (pyStrip it.label)) then
    it.value.bind (fun v =>
      let ds := (pyStrip v).data.filter Char.isDigit
      if ds.isEmpty then none else some (digitsToNat ds))
  else none

/-- A JSON value is an object declaring `@type` `"Course"`. -/
def isCourseObj (j : Json) : Bool :=
  match j with
  | .obj fs =>
    match Json.lookupField "@type" fs with
    | some (.str s) => s == "Course"
    | _ => false
  | _ => false

/-- A parsed metadata block contains a Course-typed object, directly or
as an item of an array payload. -/
def blockMentionsCourse : Option Json → Bool
  | none => false
  | some (.arr items) => items.any isCourseObj
  | some j => isCourseObj j

/-! ## Concrete fixtures used in the theorems below -/

/-- A region with two structurally distinct paragraphs whose trimmed text
is identical. -/
def dupParaRegion : Html :=
  .tag "div" [.tag "p" [.text "Hello"],
              .tag "p" [.tag "span" [.text "Hello"]]]

/-- A region whose first paragraph contains both text and an image, with
a text-only sibling paragraph. -/
def imgTextRegion : Html :=
  .tag "div" [.tag "p" [.text "Hello", .tag "img" []],
              .tag "p" [.text "World"]]

/-- A region whose first paragraph contains only an image. -/
def imgOnlyRegion : Html :=
  .tag "div" [.tag "p" [.tag "img" []],
              .tag "p" [.text "World"]]

/-- A JSON-LD block whose declared type is the Track entity type. -/
def trackObjEx : Json :=
  .obj [("@type", .str "Track"), ("name", .str "SQL Practice Track")]

/-- A JSON-LD block of an unrelated declared type. -/
def breadcrumbEx : Json :=
  .obj [("@type", .str "BreadcrumbList"), ("name", .str "Home")]

/-- A JSON-LD Course object with the full field complement. -/
def courseObjEx : Json :=
  .obj [("@type", .str "Course"), ("name", .str "SQL Basics"),
        ("description", .str "Learn SQL"),
        ("educationalLevel", .str "Beginner"),
        ("offers", .obj [("price", .num 25), ("priceCurrency", .str "USD")]),
        ("timeRequired", .str "PT5H")]

/-- A minimal JSON-LD Course object. -/
def courseObjEx2 : Json :=
  .obj [("@type", .str "Course"), ("name", .str "SQL Joins")]

/-- A fully populated course record. -/
def courseInfoEx : CourseInfo :=
  { type := some (.str "Course"), title := some (.str "SQL Basics"),
    description := some (.str "Learn SQL"), price := some (.num 25),
    currency := some (.str "USD"), courseWorkload_hours := some 5,
    educationalLevel := some (.str "Beginner"),
    skills := ["Joins", "Subqueries"], detailed_description := "## About",
    exercises_count := some 12, source_url := "https://example.com/sql" }

/-- A fully populated track record. -/
def trackInfoEx : TrackInfo :=
  { name := "SQL Practice Track", description := .str "d",
    detailed_description := "", price := .num 49, hours := "10",
    level := .str "Beginner", dialect := "Standard SQL",
    purpose := "practice", skills := ["A", "B"], course_urls := [],
    url := "https://example.com/track" }

/-! ## Deduplication lemmas for the track renderer -/

theorem keepFirsts_congr :
    ∀ (l s1 s2 : List String), (∀ a, a ∈ s1 ↔ a ∈ s2) →
      keepFirsts s1 l = keepFirsts s2 l
  | [], _, _, _ => rfl
  | x :: xs, s1, s2, h => by
    simp only [keepFirsts]
    by_cases hx : x ∈ s1
    · rw [if_pos hx, if_pos ((h x).1 hx)]
      exact keepFirsts_congr xs s1 s2 h
    · rw [if_neg hx, if_neg (fun hc => hx ((h x).2 hc))]
      rw [keepFirsts_congr xs (x :: s1) (x :: s2)
        (by intro a; simp [h a])]

theorem foldl_appendUnique :
    ∀ (l acc : List String),
      l.foldl appendUnique acc = acc ++ keepFirsts acc l
  | [], acc => by simp [keepFirsts]
  | x :: xs, acc => by
    by_cases hx : x ∈ acc
    · simp only [List.foldl_cons, appendUnique, if_pos hx, keepFirsts]
      exact foldl_appendUnique xs acc
    · simp only [List.foldl_cons, appendUnique, if_neg hx, keepFirsts]
      rw [foldl_appendUnique xs (acc ++ [x]),
        keepFirsts_congr xs (acc ++ [x]) (x :: acc)
          (by intro a; simp [or_comm]),
        List.append_assoc]
      rfl

theorem foldl_appendUnique_flatMap {α : Type} (g : α → List String) :
    ∀ (ds : List α) (acc : List String),
      ds.foldl (fun a d => (g d).foldl appendUnique a) acc
        = (ds.flatMap g).foldl appendUnique acc
  | [], acc => rfl
  | d :: ds, acc => by
    simp only [List.foldl_cons, List.flatMap_cons, List.foldl_append]
    exact foldl_appendUnique_flatMap g ds ((g d).foldl appendUnique acc)

theorem keepFirsts_idem :
    ∀ (l s : List String), keepFirsts s (keepFirsts s l) = keepFirsts s l
  | [], _ => rfl
  | x :: xs, s => by
    by_cases hx : x ∈ s
    · simp only [keepFirsts, if_pos hx]
      exact keepFirsts_idem xs s
    · simp only [keepFirsts, if_neg hx]
      rw [keepFirsts_idem xs (x :: s)]

/-! ## Lemmas on the duration regex -/

theorem digitSpan_spec :
    ∀ l : List Char,
      (digitSpan l).1 ++ (digitSpan l).2 = l ∧
        ∀ c ∈ (digitSpan l).1, c.isDigit
  | [] => by simp [digitSpan]
  | c :: rest => by
    have ih := digitSpan_spec rest
    rcases hds : digitSpan rest with ⟨ds, r⟩
    rw [hds] at ih
    by_cases hc : c.isDigit
    · simp only [digitSpan, if_pos hc, hds]
      refine ⟨?_, ?_⟩
      · simp only [List.cons_append, ih.1]
      · intro x hx
        rcases List.mem_cons.1 hx with h | h
        · subst h; exact hc
        · exact ih.2 x h
    · simp [digitSpan, if_neg hc]

theorem digitSpan_append :
    ∀ (ds r : List Char), (∀ c ∈ ds, c.isDigit) →
      (∀ c, r.head? = some c → c.isDigit = false) →
      digitSpan (ds ++ r) = (ds, r)
  | [], r, _, hr => by
    cases r with
    | nil => simp [digitSpan]
    | cons c t => simp [digitSpan, hr c rfl]
  | d :: ds, r, hds, hr => by
    have hd : d.isDigit := hds d (List.mem_cons_self d ds)
    have ih := digitSpan_append ds r
      (fun c hc => hds c (List.mem_cons_of_mem d hc)) hr
    simp [digitSpan, hd, ih]

theorem matchPTH_some :
    ∀ (l ds : List Char), matchPTH l = some ds →
      ∃ suf, l = 'P' :: 'T' :: (ds ++ 'H' :: suf) ∧ ds ≠ [] ∧
        ∀ c ∈ ds, c.isDigit := by
  intro l ds h
  match l with
  | [] => simp [matchPTH] at h
  | [c] => simp [matchPTH] at h
  | c1 :: c2 :: rest =>
    have hspec := digitSpan_spec rest
    rcases hds : digitSpan rest with ⟨ds0, r⟩
    rw [hds] at hspec
    simp only [matchPTH, hds] at h
    split_ifs at h with h1 h2
    · rcases h1 with ⟨hP, hT⟩
      have hds0 : ds0 = ds := Option.some_injective _ h
      subst hds0
      subst hP; subst hT
      rcases h2 with ⟨hne, hhead⟩
      cases r with
      | nil => simp at hhead
      | cons a t =>
        have ha : a = 'H' := by simpa using hhead
        subst ha
        exact ⟨t, by rw [← hspec.1], hne, hspec.2⟩

theorem matchPTH_of (ds suf : List Char) (h1 : ds ≠ [])
    (h2 : ∀ c ∈ ds, c.isDigit) :
    matchPTH ('P' :: 'T' :: (ds ++ 'H' :: suf)) = some ds := by
  have hds := digitSpan_append ds ('H' :: suf) h2
    (by intro c hc; simp at hc; subst hc; decide)
  simp [matchPTH, hds, h1]

theorem searchPTH_isSome_iff :
    ∀ l : List Char, (searchPTH l).isSome = true ↔
      ∃ pre ds suf, l = pre ++ ('P' :: 'T' :: ds) ++ ('H' :: suf) ∧
        ds ≠ [] ∧ ∀ c ∈ ds, c.isDigit
  | [] => by
    constructor
    · intro h; simp [searchPTH] at h
    · rintro ⟨pre, ds, suf, h, -, -⟩
      exact absurd h (by cases pre <;> simp)
  | c :: rest => by
    rcases hm : matchPTH (c :: rest) with _ | ds0
    · have ih := searchPTH_isSome_iff rest
      constructor
      · intro h
        simp only [searchPTH, hm] at h
        rcases ih.1 h with ⟨pre, ds, suf, hEq, hne, hdig⟩
        exact ⟨c :: pre, ds, suf, by simp [hEq], hne, hdig⟩
      · rintro ⟨pre, ds, suf, hEq, hne, hdig⟩
        simp only [searchPTH, hm]
        cases pre with
        | nil =>
          exfalso
          have hEq' : c :: rest = 'P' :: 'T' :: (ds ++ 'H' :: suf) := by
            simpa using hEq
          rw [hEq', matchPTH_of ds suf hne hdig] at hm
          exact Option.noConfusion hm
        | cons c' pre' =>
          have hrest : rest = pre' ++ ('P' :: 'T' :: ds) ++ ('H' :: suf) := by
            have h2 := hEq
            simp only [List.cons_append, List.cons.injEq] at h2
            exact h2.2
          exact ih.2 ⟨pre', ds, suf, hrest, hne, hdig⟩
    · constructor
      · intro _
        rcases matchPTH_some _ _ hm with ⟨suf, hEq, hne, hdig⟩
        exact ⟨[], ds0, suf, by simp [hEq], hne, hdig⟩
      · intro _
        simp [searchPTH, hm]

theorem durationParser_eq_search (s : String) :
    durationParser (some s) = searchPTH s.data := by
  by_cases h : s = ""
  · subst h; rfl
  · simp [durationParser, h]

/-! ## Further helper lemmas -/

theorem dedupPass_trackLinesAcc (e : Html) :
    dedupPass (trackLinesAcc e) = keepFirsts [] (rawTrackLines e) := by
  have h1 : trackLinesAcc e = keepFirsts [] (rawTrackLines e) := by
    rw [trackLinesAcc, foldl_appendUnique_flatMap candTrack e.descTagsLi [],
      foldl_appendUnique]
    simp [rawTrackLines]
  rw [h1, dedupPass, foldl_appendUnique, keepFirsts_idem]
  simp

theorem courseItemsLoop_no_course :
    ∀ (items : List Json) (acc : List CourseInfo),
      (∀ it ∈ items, isCourseObj it = false) →
      courseItemsLoop items acc = acc
  | [], _, _ => rfl
  | item :: rest, acc, h => by
    have hhead := h item (List.mem_cons_self item rest)
    have htail : ∀ it ∈ rest, isCourseObj it = false :=
      fun it hit => h it (List.mem_cons_of_mem _ hit)
    cases item with
    | obj fs =>
      have hct : isCourseTyped (Json.lookupField "@type" fs) = false := hhead
      simp only [courseItemsLoop, pyGet, hct]
      simp only [Bool.false_eq_true, if_false]
      exact courseItemsLoop_no_course rest acc htail
    | null => simp [courseItemsLoop, pyGet]
    | bool b => simp [courseItemsLoop, pyGet]
    | num n => simp [courseItemsLoop, pyGet]
    | str s => simp [courseItemsLoop, pyGet]
    | arr l => simp [courseItemsLoop, pyGet]

theorem processScript_no_course :
    ∀ s : Option Json, blockMentionsCourse s = false → processScript s = []
  | none, _ => rfl
  | some (.arr items), h => by
    simp only [blockMentionsCourse] at h
    have hitems : ∀ it ∈ items, isCourseObj it = false := by
      intro it hit
      simpa using (List.any_eq_false.mp h) it hit
    simpa [processScript] using courseItemsLoop_no_course items [] hitems
  | some (.obj fs), h => by
    have hct : isCourseTyped (Json.lookupField "@type" fs) = false := h
    simp [processScript, pyGet, hct]
  | some .null, _ => by simp [processScript, pyGet]
  | some (.bool b), _ => by simp [processScript, pyGet]
  | some (.num n), _ => by simp [processScript, pyGet]
  | some (.str s), _ => by simp [processScript, pyGet]

theorem courseSkillsCell_eq (skills : List String) :
    courseSkillsCell skills = String.intercalate "\n" skills := by
  cases skills with
  | nil => rfl
  | cons a l => simp [courseSkillsCell]

theorem trackSkillsCell_eq (skills : List String) :
    trackSkillsCell skills = String.intercalate ", " skills := by
  cases skills with
  | nil => rfl
  | cons a l => simp [trackSkillsCell]

/-! ## Claim theorems -/

/-- C1 (counterexample): the duration parser, run on the longer duration
token `"PT10H30M"`, returns 10 — a partial parse of a string that does
not match the whole-string pattern `PT<digits>H` — where the claim
requires null. -/
theorem durationParser_partial_token_cex :
    durationParser (some "PT10H30M") = some 10 ∧
    fullMatchPTH "PT10H30M" = false ∧
    specDurationParser (some "PT10H30M") = none :=
  ⟨by decide, by decide, by decide⟩

/-- C1 (amended): the duration parser returns the integer hour count of
the first `PT<digits>H` substring occurring anywhere in the input — in
particular inside a longer duration token — and null exactly when the
input is absent or contains no such substring.  The spec's examples
`PT10H → 10`, `PT0H → 0`, `P1D → null`, `null → null` all hold. -/
theorem durationParser_leftmost_substring :
    durationParser (some "PT10H") = some 10 ∧
    durationParser (some "PT0H") = some 0 ∧
    durationParser (some "P1D") = none ∧
    durationParser none = none ∧
    (∀ s : String, (durationParser (some s)).isSome = true ↔ HasPTHSub s) ∧
    (∀ ds suf : List Char, ds ≠ [] → (∀ c ∈ ds, c.isDigit) →
      durationParser (some ⟨'P' :: 'T' :: (ds ++ 'H' :: suf)⟩)
        = some (digitsToNat ds)) := by
  refine ⟨by decide, by decide, by decide, rfl, ?_, ?_⟩
  · intro s
    rw [durationParser_eq_search]
    exact searchPTH_isSome_iff s.data
  · intro ds suf h1 h2
    rw [durationParser_eq_search]
    show searchPTH ('P' :: 'T' :: (ds ++ 'H' :: suf)) = some (digitsToNat ds)
    simp [searchPTH, matchPTH_of ds suf h1 h2]

/-- Witness for C1: the amended theorem applied at the concrete
decomposition of `"PT10H30M"` and at the substring characterization. -/
theorem durationParser_leftmost_substring_witness :
    durationParser (some ⟨'P' :: 'T' :: (['1', '0'] ++ 'H' :: ['3', '0', 'M'])⟩)
      = some 10 ∧ HasPTHSub "PT10H30M" :=
  ⟨by
    rw [durationParser_leftmost_substring.2.2.2.2.2 ['1', '0'] ['3', '0', 'M']
      (by decide) (by decide)]
    rfl,
   (durationParser_leftmost_substring.2.2.2.2.1 "PT10H30M").1 (by decide)⟩

/-- C2 (counterexample): the course pipeline's renderer
(course_scraper.py `convert_html_to_markdown`) performs no
deduplication: a region with two structurally distinct paragraphs of
identical trimmed text yields two lines for that text, not one. -/
theorem course_renderer_no_dedup_cex :
    dupParaRegion.childrenOf.flatMap candCourse = ["Hello", "Hello"] ∧
    convert_html_to_markdown_course dupParaRegion = "Hello\n\nHello" :=
  ⟨by decide, by decide⟩

/-- C2 (amended): the track pipeline's renderer emits candidate lines in
document order and deduplicates them by exact text match keeping the
first occurrence (for every region, its output is `keepFirsts` of the
raw document-order emission); on the region with two structurally
distinct paragraphs of identical trimmed text it emits exactly one line
for that text, in first-occurrence position.  The course pipeline's
renderer deduplicates nothing (see the counterexample). -/
theorem track_renderer_dedups_keeping_first :
    (∀ e : Html,
      dedupPass (trackLinesAcc e) = keepFirsts [] (rawTrackLines e)) ∧
    rawTrackLines dupParaRegion = ["Hello", "Hello"] ∧
    dedupPass (trackLinesAcc dupParaRegion) = ["Hello"] ∧
    convert_html_to_markdown_track dupParaRegion = "Hello" :=
  ⟨dedupPass_trackLinesAcc, by decide, by decide, by decide⟩

/-- C3 (counterexample): on a document whose first `ld+json` block is the
only one with the target declared type and whose second block has an
unrelated type, the extractor builds its result from the second script
tag (name `"Home"` from the BreadcrumbList block), while the claim's
rule — second block whose declared type equals the target — selects
nothing and requires none. -/
theorem track_second_script_untyped_cex :
    (extract_track_info [some trackObjEx, some breadcrumbEx] [] "").map
        (fun t => t.name) = some "Home" ∧
    secondMatchingBlock "Track" [some trackObjEx, some breadcrumbEx]
      = none :=
  ⟨by decide, rfl⟩

/-- C3 (amended): Track metadata extraction selects the second
`application/ld+json` script block purely positionally — its result
depends only on the block at index 1, with no filtering on the declared
type — and returns none when fewer than two such blocks exist. -/
theorem extract_track_info_positional :
    (∀ (a b : Option Json) (rest : List (Option Json)) (sk : List String)
        (dd : String),
      extract_track_info (a :: b :: rest) sk dd =
        match b with
        | some j =>
          match buildTrackInfo j sk dd with
          | .ok t => some t
          | .error _ => none
        | none => none) ∧
    (∀ (scripts : List (Option Json)) (sk : List String) (dd : String),
      scripts.length < 2 → extract_track_info scripts sk dd = none) := by
  constructor
  · intro a b rest sk dd
    have hlen : ¬ (a :: b :: rest).length < 2 := by
      simp only [List.length_cons]; omega
    cases b with
    | none => simp [extract_track_info, hlen]
    | some j => simp [extract_track_info, hlen]
  · intro scripts sk dd h
    simp [extract_track_info, h]

/-- Witness for C3: the amended theorem applied at a one-block document
(hypothesis `length < 2` discharged concretely). -/
theorem extract_track_info_positional_witness :
    extract_track_info [some trackObjEx] [] "" = none :=
  extract_track_info_positional.2 [some trackObjEx] [] "" (by decide)

/-- C4 (counterexample): a paragraph that contains the text `"Hello"`
alongside an image is omitted entirely by the track pipeline's renderer
(only its sibling `"World"` is emitted), where the claim requires a
text-bearing paragraph to be emitted. -/
theorem track_text_with_image_omitted_cex :
    getTextStrip (.tag "p" [.text "Hello", .tag "img" []]) = "Hello" ∧
    rawTrackLines imgTextRegion = ["World"] ∧
    convert_html_to_markdown_track imgTextRegion = "World" :=
  ⟨by decide, by decide, by decide⟩

/-- C4 (amended): the course pipeline's renderer omits a paragraph
exactly when its extracted text is empty (so an image-only paragraph is
omitted and a paragraph with both text and an image is emitted — its
`img` test is vacuous), while the track pipeline's renderer omits a
paragraph when its text is empty or it contains any `img` or `picture`
descendant, even alongside text; in both, an image-only paragraph emits
no line and sibling text paragraphs are still emitted. -/
theorem paragraph_omission_rules :
    (∀ cs : List Html,
      candCourse (.tag "p" cs) =
        (if getTextStrip (.tag "p" cs) = "" then []
         else [getTextStrip (.tag "p" cs)])) ∧
    (∀ (cs : List Html) (fl : Bool),
      candTrack (.tag "p" cs, fl) =
        (if getTextStrip (.tag "p" cs) = "" ∨
            (Html.tag "p" cs).hasDescTag "picture" = true ∨
            (Html.tag "p" cs).hasDescTag "img" = true then []
         else [getTextStrip (.tag "p" cs)])) ∧
    convert_html_to_markdown_course imgOnlyRegion = "World" ∧
    convert_html_to_markdown_track imgOnlyRegion = "World" ∧
    candCourse (.tag "p" [.text "Hello", .tag "img" []]) = ["Hello"] := by
  refine ⟨?_, ?_, by decide, by decide, by decide⟩
  · intro cs
    by_cases ht : getTextStrip (.tag "p" cs) = ""
    · simp [candCourse, ht]
    · simp [candCourse, ht]
  · intro cs fl
    by_cases ht : getTextStrip (.tag "p" cs) = ""
    · simp [candTrack, ht]
    · by_cases hp : (Html.tag "p" cs).hasDescTag "picture" = true
      · simp [candTrack, ht, hp]
      · by_cases hi : (Html.tag "p" cs).hasDescTag "img" = true
        · simp [candTrack, ht, hp, hi]
        · simp [candTrack, ht, hp, hi]

/-- C5: a metadata block that fails to parse is skipped and extraction
continues with the remaining blocks — removing a failed block from any
position leaves the result unchanged, so one bad block never aborts the
document — and when no block contains a Course-typed object the
extractor returns the empty list rather than an error. -/
theorem bad_block_skipped_and_empty_result :
    (∀ (pre post : List (Option Json)),
      find_course_json_ld (pre ++ none :: post) =
        find_course_json_ld (pre ++ post)) ∧
    (∀ scripts : List (Option Json),
      (∀ s ∈ scripts, blockMentionsCourse s = false) →
      find_course_json_ld scripts = []) := by
  constructor
  · intro pre post
    simp [find_course_json_ld, List.flatMap_append, List.flatMap_cons,
      processScript]
  · intro scripts h
    induction scripts with
    | nil => rfl
    | cons s rest ih =>
      have h1 := processScript_no_course s (h s (List.mem_cons_self s rest))
      have h2 := ih (fun x hx => h x (List.mem_cons_of_mem _ hx))
      rw [find_course_json_ld, List.flatMap_cons, h1, List.nil_append]
      exact h2

/-- Witness for C5: a parse-failing block next to a good Course block is
skipped, and a document with only a non-Course block yields the empty
list. -/
theorem bad_block_skipped_and_empty_result_witness :
    find_course_json_ld [some courseObjEx, none] =
      find_course_json_ld [some courseObjEx] ∧
    find_course_json_ld [some breadcrumbEx] = [] :=
  ⟨bad_block_skipped_and_empty_result.1 [some courseObjEx] [],
   bad_block_skipped_and_empty_result.2 [some breadcrumbEx] (by decide)⟩

/-- C6: the exercises-count extractor returns the first candidate value
in label order — a candidate is a label whose lower-cased text contains
"coding challenges" or "exercises", its value being the integer left
after stripping non-digits from the adjacent value text — skipping
candidates whose value fails to parse, and none when no candidate
yields a value.  Concretely: label "Coding Challenges" with value
"12 exercises" gives 12; a digit-free value makes the scan continue to
the next candidate; digits next to non-candidate labels are ignored. -/
theorem exercises_count_first_candidate :
    (∀ items : List SummaryItem,
      extract_exercises_count items = items.findSome? candidateValue) ∧
    extract_exercises_count
      [⟨"Coding Challenges", some "12 exercises"⟩] = some 12 ∧
    extract_exercises_count
      [⟨"Coding Challenges", some "none"⟩,
       ⟨"Exercises", some "95 exercises"⟩] = some 95 ∧
    extract_exercises_count
      [⟨"Coding Challenges", some "none"⟩, ⟨"Hours", some "7"⟩] = none := by
  refine ⟨?_, by decide, by decide, by decide⟩
  intro items
  induction items with
  | nil => rfl
  | cons it rest ih =>
    by_cases hl : isExercisesLabel (pyLower (pyStrip it.label)) = true
    · cases hv : it.value with
      | none =>
        simp [extract_exercises_count, List.findSome?_cons, candidateValue,
          hl, hv, ih]
      | some v =>
        by_cases hds : ∀ a ∈ (pyStrip v).data, a.isDigit = false
        · simp [extract_exercises_count, List.findSome?_cons, candidateValue,
            hl, hv, ih]
          rw [if_pos hds, if_pos hds]
        · simp [extract_exercises_count, List.findSome?_cons, candidateValue,
            hl, hv, hds]
    · simp [extract_exercises_count, List.findSome?_cons, candidateValue,
        hl, ih]

/-- C7: the dialect is resolved by scanning the title for "MySQL",
"PostgreSQL", "SQL Server" in that priority order with first match
winning and default "Standard SQL"; the purpose is "practice" exactly
when the title contains "Practice", else "learn"; including the spec's
two concrete examples. -/
theorem dialect_purpose_from_title :
    (∀ t, strContains t "MySQL" = true → dialectOf t = "MySQL") ∧
    (∀ t, strContains t "MySQL" = false →
      strContains t "PostgreSQL" = true → dialectOf t = "PostgreSQL") ∧
    (∀ t, strContains t "MySQL" = false →
      strContains t "PostgreSQL" = false →
      strContains t "SQL Server" = true → dialectOf t = "SQL Server") ∧
    (∀ t, strContains t "MySQL" = false →
      strContains t "PostgreSQL" = false →
      strContains t "SQL Server" = false →
      dialectOf t = "Standard SQL") ∧
    (∀ t, strContains t "Practice" = true → purposeOf t = "practice") ∧
    (∀ t, strContains t "Practice" = false → purposeOf t = "learn") ∧
    (dialectOf "Advanced MySQL Practice Track" = "MySQL" ∧
      purposeOf "Advanced MySQL Practice Track" = "practice") ∧
    (dialectOf "SQL Fundamentals" = "Standard SQL" ∧
      purposeOf "SQL Fundamentals" = "learn") := by
  refine ⟨?_, ?_, ?_, ?_, ?_, ?_, ⟨by decide, by decide⟩,
    ⟨by decide, by decide⟩⟩
  · intro t h; simp [dialectOf, h]
  · intro t h1 h2; simp [dialectOf, h1, h2]
  · intro t h1 h2 h3; simp [dialectOf, h1, h2, h3]
  · intro t h1 h2 h3; simp [dialectOf, h1, h2, h3]
  · intro t h; simp [purposeOf, h]
  · intro t h; simp [purposeOf, h]

/-- Witness for C7: the priority and default rules applied to concrete
titles. -/
theorem dialect_purpose_from_title_witness :
    dialectOf "MySQL vs PostgreSQL" = "MySQL" ∧
    purposeOf "SQL Basics" = "learn" :=
  ⟨dialect_purpose_from_title.1 "MySQL vs PostgreSQL" (by decide),
   dialect_purpose_from_title.2.2.2.2.2.1 "SQL Basics" (by decide)⟩

/-- C8 (counterexample): with zero Course records the course export
block (guarded by `if all_courses:`) writes no table at all — not a
table with a header row and zero data rows as the claim requires for
every N. -/
theorem course_export_empty_writes_nothing_cex :
    course_csv_export [] = none := rfl

/-- C8 (amended): the track exporter writes, for a collection of any
size N, a table of exactly one header row plus N data rows with exactly
the 12 fixed columns in order; the course export block does the same
for every non-empty collection, but writes no table at all when N = 0. -/
theorem exporter_table_shape :
    (∀ ts : List TrackInfo,
      (save_tracks_to_csv ts).length = ts.length + 1 ∧
      (save_tracks_to_csv ts).head? = some fieldnames ∧
      fieldnames.length = 12 ∧
      ∀ r ∈ save_tracks_to_csv ts, r.length = 12) ∧
    (∀ cs : List CourseInfo, cs ≠ [] →
      course_csv_export cs = some (fieldnames :: cs.map courseRow) ∧
      (fieldnames :: cs.map courseRow).length = cs.length + 1 ∧
      ∀ r ∈ fieldnames :: cs.map courseRow, r.length = 12) := by
  constructor
  · intro ts
    refine ⟨by simp [save_tracks_to_csv], by simp [save_tracks_to_csv],
      by decide, ?_⟩
    intro r hr
    rcases List.mem_cons.1 hr with h | h
    · subst h; decide
    · rcases List.mem_map.1 h with ⟨t, -, ht⟩
      subst ht; rfl
  · intro cs hne
    refine ⟨?_, by simp, ?_⟩
    · cases cs with
      | nil => exact absurd rfl hne
      | cons c rest => simp [course_csv_export]
    · intro r hr
      rcases List.mem_cons.1 hr with h | h
      · subst h; decide
      · rcases List.mem_map.1 h with ⟨c, -, hc⟩
        subst hc; rfl

/-- Witness for C8: the amended theorem applied to concrete singleton
collections. -/
theorem exporter_table_shape_witness :
    course_csv_export [courseInfoEx]
      = some (fieldnames :: [courseInfoEx].map courseRow) ∧
    (save_tracks_to_csv [trackInfoEx]).length = 2 :=
  ⟨(exporter_table_shape.2 [courseInfoEx] (by simp)).1,
   by rw [(exporter_table_shape.1 [trackInfoEx]).1]; rfl⟩

/-- C9: the skills column (position 8 of the fixed schema) renders as
the newline-join of the record's skills for Course rows and as the
comma-join for Track rows, and is empty for an empty skills sequence. -/
theorem skills_cell_rendering :
    (∀ c : CourseInfo,
      (courseRow c)[8]? = some (String.intercalate "\n" c.skills)) ∧
    (∀ t : TrackInfo,
      (trackRow t)[8]? = some (String.intercalate ", " t.skills)) ∧
    fieldnames[8]? = some "skills" ∧
    (∀ skills : List String, skills = [] →
      courseSkillsCell skills = "" ∧ trackSkillsCell skills = "") := by
  refine ⟨?_, ?_, by decide, ?_⟩
  · intro c
    show some (courseSkillsCell c.skills) = _
    rw [courseSkillsCell_eq]
  · intro t
    show some (trackSkillsCell t.skills) = _
    rw [trackSkillsCell_eq]
  · intro skills h
    subst h
    exact ⟨rfl, rfl⟩

/-- Witness for C9: the rendering rules applied at concrete records and
the empty skills sequence. -/
theorem skills_cell_rendering_witness :
    (courseRow courseInfoEx)[8]?
      = some (String.intercalate "\n" courseInfoEx.skills) ∧
    courseSkillsCell [] = "" :=
  ⟨skills_cell_rendering.1 courseInfoEx,
   (skills_cell_rendering.2.2.2 [] rfl).1⟩

/-- C10: in the per-document loop, every record extracted from one
document is assigned the same document-level skills list, detailed
description, exercises count and source URL — the values computed once
before the loop. -/
theorem document_fields_uniform :
    ∀ (url : String) (scripts : List (Option Json)) (sk : List String)
      (dd : String) (ec : Option Nat) (i : Nat)
      (h : i < (process_url url scripts sk dd ec).length),
      (process_url url scripts sk dd ec)[i].skills = sk ∧
      (process_url url scripts sk dd ec)[i].detailed_description = dd ∧
      (process_url url scripts sk dd ec)[i].exercises_count = ec ∧
      (process_url url scripts sk dd ec)[i].source_url = url := by
  intro url scripts sk dd ec i h
  have h' : i < (find_course_json_ld scripts).length := by
    simpa [process_url, attachDocumentData] using h
  simp [process_url, attachDocumentData, List.getElem_map]

/-- Witness for C10: a document whose metadata yields two Course objects
gives records that all carry the document-level values. -/
theorem document_fields_uniform_witness :
    (process_url "https://x" [some (.arr [courseObjEx, courseObjEx2])]
        ["Joins"] "d" (some 12)).length = 2 ∧
    ((process_url "https://x" [some (.arr [courseObjEx, courseObjEx2])]
        ["Joins"] "d" (some 12)).get ⟨0, by decide⟩).skills = ["Joins"] ∧
    ((process_url "https://x" [some (.arr [courseObjEx, courseObjEx2])]
        ["Joins"] "d" (some 12)).get ⟨1, by decide⟩).source_url
      = "https://x" :=
  ⟨by decide,
   (document_fields_uniform "https://x"
      [some (.arr [courseObjEx, courseObjEx2])] ["Joins"] "d" (some 12) 0
      (by decide)).1,
   (document_fields_uniform "https://x"
      [some (.arr [courseObjEx, courseObjEx2])] ["Joins"] "d" (some 12) 1
      (by decide)).2.2.2⟩
